import Mathlib

/-!
Verification development for the Gopher network service
(`src/device.rs`, `src/gopher.rs`, `src/gopher/{mod,network,server,stack}.rs`).

The repository holds two parallel drafts of the service: `GopherManager`
(`src/gopher.rs`) and `GopherServer` with its `GopherSocket` façade
(`src/gopher/*.rs`).  Both are embedded below where a claim cites both.

External dependencies (the `smoltcp` TCP/IP stack and the `glenda` runtime
crate) are not part of this repository; they are modelled from their
documented interface behaviour, and each such model is marked as a
dependency model in its comment.
-/

namespace GopherModel

/-! ## Dependency model: glenda error codes

`glenda::error::Error` is external.  The discriminant values (`e as i32`
in `process_iouring`) are represented by distinct codes; the claims only
use them symbolically (negated error code / negated NotSupported). -/

inductive Error where
  | Success
  | NotFound
  | InvalidArgs
  | WouldBlock
  | Timeout
  | NotSupported
  | NotInitialized
  | IoError
  | InternalError
  | Generic
  deriving DecidableEq

def Error.code : Error → Int
  | .Success => 0
  | .NotFound => 1
  | .InvalidArgs => 2
  | .WouldBlock => 3
  | .Timeout => 4
  | .NotSupported => 5
  | .NotInitialized => 6
  | .IoError => 7
  | .InternalError => 8
  | .Generic => 9

instance {ε α : Type} [DecidableEq ε] [DecidableEq α] : DecidableEq (Except ε α) := fun x y =>
  match x, y with
  | .ok a, .ok b =>
      if h : a = b then isTrue (by rw [h])
      else isFalse (by intro hh; cases hh; exact h rfl)
  | .ok _, .error _ => isFalse (fun hh => Except.noConfusion hh)
  | .error _, .ok _ => isFalse (fun hh => Except.noConfusion hh)
  | .error a, .error b =>
      if h : a = b then isTrue (by rw [h])
      else isFalse (by intro hh; cases hh; exact h rfl)

/-- Dependency model: `glenda::protocol::network::AF_INET` (POSIX value). -/
def AF_INET : Int := 2

/-- Dependency model: `glenda::protocol::network::SOCK_STREAM` (POSIX value). -/
def SOCK_STREAM : Int := 1

/-- Dependency model: `glenda::io::uring::IOURING_OP_READ` opcode. -/
def IOURING_OP_READ : Nat := 1

/-- Dependency model: `glenda::io::uring::IOURING_OP_WRITE` opcode. -/
def IOURING_OP_WRITE : Nat := 2

/-! ## Dependency model: smoltcp TCP socket

`smoltcp::socket::tcp::Socket` is modelled by the fields the service
reads: the `may_send`/`may_recv` readiness flags, the open flag consulted
by `listen`, and the TX/RX byte buffers with their fixed capacities.
Bytes are naturals (< 256 in any real run).

Contracts, from smoltcp:
* `send_slice` fails (`SendError::InvalidState`) exactly when
  `!may_send()`; otherwise it enqueues as many bytes as fit and returns
  the count.
* `recv_slice` fails exactly when `!may_recv()` (with
  `RecvError::Finished` after a FIN, `InvalidState` otherwise); otherwise
  it dequeues up to the buffer length and returns the count.
* `can_send()` = `may_send()` and the TX buffer is not full;
  `can_recv()` = `may_recv()` and the RX buffer is not empty.
* `listen(port)` fails with `Unaddressable` for port 0 and with
  `InvalidState` when the socket is already open; on success the socket
  enters the LISTEN state on that port. -/

inductive SmolSendErr where
  | InvalidState
  deriving DecidableEq

inductive SmolRecvErr where
  | InvalidState
  | Finished
  deriving DecidableEq

inductive SmolListenErr where
  | Unaddressable
  | InvalidState
  deriving DecidableEq

structure TcpSocket where
  maySend : Bool
  mayRecv : Bool
  isOpen : Bool
  rxFin : Bool
  txBuf : List Nat
  txCap : Nat
  rxBuf : List Nat
  rxCap : Nat
  listenPort : Option Nat
  deriving DecidableEq

/-- A fresh socket as created by `socket()`: 4 KiB TX and RX buffers
(`tcp::SocketBuffer::new(vec![0; 4096])`), closed state. -/
def newTcpSocket : TcpSocket :=
  { maySend := false, mayRecv := false, isOpen := false, rxFin := false
    txBuf := [], txCap := 4096, rxBuf := [], rxCap := 4096, listenPort := none }

def TcpSocket.canSend (s : TcpSocket) : Bool :=
  s.maySend && decide (s.txBuf.length < s.txCap)

def TcpSocket.canRecv (s : TcpSocket) : Bool :=
  s.mayRecv && decide (s.rxBuf.length ≠ 0)

def TcpSocket.sendSlice (s : TcpSocket) (data : List Nat) :
    Except SmolSendErr (Nat × TcpSocket) :=
  if s.maySend then
    let n := min (s.txCap - s.txBuf.length) data.length
    .ok (n, { s with txBuf := s.txBuf ++ data.take n })
  else .error .InvalidState

def TcpSocket.recvSlice (s : TcpSocket) (bufLen : Nat) :
    Except SmolRecvErr (Nat × List Nat × TcpSocket) :=
  if s.mayRecv then
    let n := min s.rxBuf.length bufLen
    .ok (n, s.rxBuf.take n, { s with rxBuf := s.rxBuf.drop n })
  else .error (if s.rxFin then .Finished else .InvalidState)

def TcpSocket.listenOn (s : TcpSocket) (port : Nat) :
    Except SmolListenErr TcpSocket :=
  if port = 0 then .error .Unaddressable
  else if s.isOpen then .error .InvalidState
  else .ok { s with isOpen := true, listenPort := some port }

/-! ## Association maps

`BTreeMap<Badge, _>` / `BTreeSet` are modelled as association lists with
replace-on-insert, and `Badge` as its 64-bit integer value (glenda's
`Badge::new(id)` / `badge.bits()` round-trip: the value returned by
`socket()` is later used verbatim as the routing key of the caller). -/

def lookupK {α : Type} (k : Nat) : List (Nat × α) → Option α
  | [] => none
  | (k', v) :: rest => if k' = k then some v else lookupK k rest

def eraseK {α : Type} (k : Nat) (l : List (Nat × α)) : List (Nat × α) :=
  l.filter (fun p => p.1 ≠ k)

def insertK {α : Type} (k : Nat) (v : α) (l : List (Nat × α)) : List (Nat × α) :=
  (k, v) :: eraseK k l

theorem eraseK_idem {α : Type} (k : Nat) (l : List (Nat × α)) :
    eraseK k (eraseK k l) = eraseK k l := by
  induction l with
  | nil => rfl
  | cons p rest ih =>
      by_cases h : p.1 = k
      · simp [eraseK, List.filter, h]
      · simp [eraseK, List.filter, h]

theorem eraseK_of_lookup_none {α : Type} (k : Nat) (l : List (Nat × α))
    (h : lookupK k l = none) : eraseK k l = l := by
  induction l with
  | nil => rfl
  | cons p rest ih =>
      by_cases hk : p.1 = k
      · simp [lookupK, hk] at h
      · simp [lookupK, hk] at h
        simp [eraseK, List.filter, hk] at *
        exact ih h

/-! ## Socket table and socket operations -/

/-- The shared state of both drafts: the smoltcp `SocketSet` (a list of
sockets addressed by slot index: handles are slot indexes, the first
`add` on an empty set returns handle 0 and sockets are never removed
from the set in this code) and the badge-to-handle map. -/
structure SocketTable where
  sockets : List TcpSocket
  socketMap : List (Nat × Nat)
  deriving DecidableEq

/-- Embedding of `SocketSet::get::<tcp::Socket>(handle)`; out-of-range handles never
occur in reachable states (the map only holds handles returned by `add`). -/
def getSock (l : List TcpSocket) (h : Nat) : TcpSocket :=
  l.getD h newTcpSocket

/-- Embedding of `NetworkService::socket` — identical logic in both drafts
(`src/gopher/network.rs` 17-39 and `src/gopher.rs` 227-248): domain and
type checks, one stack socket with 4 KiB buffers, badge derived from the
handle's integer value, `(badge -> handle)` recorded, `badge.bits()`
returned. -/
def socketCall (st : SocketTable) (domain socktype _proto : Int) :
    Except Error Nat × SocketTable :=
  if domain ≠ AF_INET then (.error .InvalidArgs, st)
  else if socktype ≠ SOCK_STREAM then (.error .NotSupported, st)
  else
    let handle := st.sockets.length
    (.ok handle,
      { sockets := st.sockets ++ [newTcpSocket],
        socketMap := insertK handle handle st.socketMap })

/-- Embedding of `GopherManager::bind_socket` (`src/gopher.rs` 71-81): resolve badge,
check `address.len() < 2`, parse a little-endian u16 port, put the stack
socket into LISTEN, mapping a stack failure to `InternalError`. -/
def bindSocket (st : SocketTable) (b : Nat) (addr : List Nat) :
    Except Error Unit × SocketTable :=
  match lookupK b st.socketMap with
  | none => (.error .NotFound, st)
  | some h =>
      if addr.length < 2 then (.error .InvalidArgs, st)
      else
        let port := addr.getD 0 0 + 256 * addr.getD 1 0
        match (getSock st.sockets h).listenOn port with
        | .error _ => (.error .InternalError, st)
        | .ok s' => (.ok (), { st with sockets := st.sockets.set h s' })

/-- Embedding of `GopherSocket::bind` (`src/gopher/network.rs` 42-46): resolves the
badge (`NotFound` when absent) and then returns `Ok(())` — the address
is ignored ("For now, smoltcp handles this differently or it's a stub"). -/
def facadeBind (st : SocketTable) (b : Nat) (_addr : List Nat) :
    Except Error Unit × SocketTable :=
  match lookupK b st.socketMap with
  | none => (.error .NotFound, st)
  | some _ => (.ok (), st)

/-- Embedding of `GopherManager::send_socket` (`src/gopher.rs` 87-96): `may_send()`
gate, `send_slice` with stack errors mapped to `IoError`, else
`WouldBlock`. -/
def sendSocket (st : SocketTable) (b : Nat) (data : List Nat) :
    Except Error Nat × SocketTable :=
  match lookupK b st.socketMap with
  | none => (.error .NotFound, st)
  | some h =>
      let s := getSock st.sockets h
      if s.maySend then
        match s.sendSlice data with
        | .ok (n, s') => (.ok n, { st with sockets := st.sockets.set h s' })
        | .error _ => (.error .IoError, st)
      else (.error .WouldBlock, st)

/-- Embedding of `GopherManager::recv_socket` (`src/gopher.rs` 98-112): `may_recv()`
gate, `recv_slice` with stack errors mapped to `IoError`, else
`WouldBlock`.  Returns the byte count and the bytes written to `buffer`. -/
def recvSocket (st : SocketTable) (b : Nat) (bufLen : Nat) :
    Except Error (Nat × List Nat) × SocketTable :=
  match lookupK b st.socketMap with
  | none => (.error .NotFound, st)
  | some h =>
      let s := getSock st.sockets h
      if s.mayRecv then
        match s.recvSlice bufLen with
        | .ok (n, bytes, s') => (.ok (n, bytes), { st with sockets := st.sockets.set h s' })
        | .error _ => (.error .IoError, st)
      else (.error .WouldBlock, st)

/-- Embedding of `GopherSocket::send` (`src/gopher/network.rs` 64-71): `can_send()`
gate (`WouldBlock` when false), `send_slice` with stack errors mapped to
`Error::Generic`. -/
def facadeSend (st : SocketTable) (b : Nat) (data : List Nat) :
    Except Error Nat × SocketTable :=
  match lookupK b st.socketMap with
  | none => (.error .NotFound, st)
  | some h =>
      let s := getSock st.sockets h
      if s.canSend then
        match s.sendSlice data with
        | .ok (n, s') => (.ok n, { st with sockets := st.sockets.set h s' })
        | .error _ => (.error .Generic, st)
      else (.error .WouldBlock, st)

/-- Embedding of `GopherSocket::recv` (`src/gopher/network.rs` 73-80): `can_recv()`
gate, `recv_slice` with stack errors mapped to `Error::Generic`. -/
def facadeRecv (st : SocketTable) (b : Nat) (bufLen : Nat) :
    Except Error (Nat × List Nat) × SocketTable :=
  match lookupK b st.socketMap with
  | none => (.error .NotFound, st)
  | some h =>
      let s := getSock st.sockets h
      if s.canRecv then
        match s.recvSlice bufLen with
        | .ok (n, bytes, s') => (.ok (n, bytes), { st with sockets := st.sockets.set h s' })
        | .error _ => (.error .Generic, st)
      else (.error .WouldBlock, st)

/-- Embedding of `GopherSocket::close` (`src/gopher/network.rs` 82-86): removes the
badge from the socket map (no presence check) and returns `Ok(())`. -/
def facadeClose (st : SocketTable) (b : Nat) :
    Except Error Unit × SocketTable :=
  (.ok (), { st with socketMap := eraseK b st.socketMap })

/-! ## Per-socket submission/completion rings

Dependency model for `glenda::io::uring::IoUringServer`: a submission
queue of entries `{opcode, addr, len, user_data}` drained by
`next_request()` and a completion queue appended to by
`complete(user_data, result)` (the completion queue is modelled as
unbounded, per the interface description of the ring in the spec). -/

structure Sqe where
  opcode : Nat
  addr : Nat
  len : Nat
  userData : Nat
  deriving DecidableEq

structure CqeU where
  userData : Nat
  res : Int
  deriving DecidableEq

structure UringSrv where
  sq : List Sqe
  cq : List CqeU
  deriving DecidableEq

/-- Embedding of `GopherServer` state relevant to the socket and ring claims: the
socket table, the per-badge uring servers, and the ring virtual-address
bump allocator. -/
structure SrvState where
  table : SocketTable
  urings : List (Nat × UringSrv)
  nextRingVaddr : Nat
  deriving DecidableEq

def alignUp (x a : Nat) : Nat := ((x + a - 1) / a) * a

/-- Embedding of `GopherSocket::setup_iouring` (`src/gopher/network.rs` 104-127):
resolves the badge (`NotFound` when absent), bumps the ring VA by the
page-aligned size, attaches a fresh ring and registers the uring server
under the badge.  The `mmap` of the client frame is an external call
whose failure propagates; the success path is modelled. -/
def setupIouring (st : SrvState) (b : Nat) (size : Nat) :
    Except Error Unit × SrvState :=
  match lookupK b st.table.socketMap with
  | none => (.error .NotFound, st)
  | some _ =>
      (.ok (),
        { st with
            urings := insertK b { sq := [], cq := [] } st.urings,
            nextRingVaddr := st.nextRingVaddr + alignUp size 4096 })

/-- One iteration of the `while let Some(sqe) = uring_server.next_request()`
loop of `GopherSocket::process_iouring` (`src/gopher/network.rs` 133-165):
READ entries go to `self.recv` into a buffer of `sqe.len` bytes, WRITE
entries go to `self.send` with the `sqe.len` bytes at `sqe.addr` (read
through the memory function `mem`), anything else completes with the
negated `NotSupported` code; the completion carries `sqe.user_data` and
the byte count or negated error code. -/
def iouringStep (b : Nat) (mem : Nat → Nat) (acc : SocketTable × List CqeU)
    (sqe : Sqe) : SocketTable × List CqeU :=
  let tbl := acc.1
  let cq := acc.2
  if sqe.opcode = IOURING_OP_READ then
    match facadeRecv tbl b sqe.len with
    | (.ok (n, _), tbl') => (tbl', cq ++ [{ userData := sqe.userData, res := (n : Int) }])
    | (.error e, tbl') => (tbl', cq ++ [{ userData := sqe.userData, res := -(e.code) }])
  else if sqe.opcode = IOURING_OP_WRITE then
    let data := (List.range sqe.len).map (fun i => mem (sqe.addr + i))
    match facadeSend tbl b data with
    | (.ok n, tbl') => (tbl', cq ++ [{ userData := sqe.userData, res := (n : Int) }])
    | (.error e, tbl') => (tbl', cq ++ [{ userData := sqe.userData, res := -(e.code) }])
  else (tbl, cq ++ [{ userData := sqe.userData, res := -(Error.NotSupported.code) }])

/-- Embedding of `GopherSocket::process_iouring` (`src/gopher/network.rs` 129-169):
removes the badge's uring server (`NotFound` when absent), drains its
whole submission queue through `iouringStep`, and re-inserts the server
with the accrued completions. -/
def processIouring (st : SrvState) (b : Nat) (mem : Nat → Nat) :
    Except Error Unit × SrvState :=
  match lookupK b st.urings with
  | none => (.error .NotFound, st)
  | some us =>
      let rest := eraseK b st.urings
      let out := us.sq.foldl (iouringStep b mem) (st.table, us.cq)
      (.ok (),
        { st with
            table := out.1,
            urings := insertK b { sq := [], cq := out.2 } rest })

/-! ## Net device adapter (`src/device.rs`)

Dependency model for the driver side (`glenda_drivers` `NetClient`): the
outcome of `submit_recv` and the head completion returned by `peek_cqe`
are oracle inputs of each `receive` call.  The SHM view is its base
address (`None` = not attached).  `inflight` is a ghost counter of RX
submissions accepted by the driver and not yet completed. -/

structure Cqe where
  userData : Nat
  res : Int
  deriving DecidableEq

structure RxTok where
  shm : Nat
  shmIdx : Nat
  len : Nat
  deriving DecidableEq

structure NetDev where
  shm : Option Nat
  rxPending : Bool
  rxId : Nat
  inflight : Nat
  deriving DecidableEq

/-- Embedding of `GlendaNetDevice::new` (`src/device.rs` 30-43 / `gopher/mod.rs` 143):
no SHM view, no RX pending, fixed tag `0x100`. -/
def newNetDev : NetDev :=
  { shm := none, rxPending := false, rxId := 0x100, inflight := 0 }

/-- Embedding of `setup_shm`: attaches the shared packet pool view. -/
def NetDev.attachShm (d : NetDev) (base : Nat) : NetDev :=
  { d with shm := some base }

structure RecvOut where
  token : Option RxTok
  submitted : Option (Nat × Nat × Nat)
  submitAccepted : Bool
  dev : NetDev
  deriving DecidableEq

/-- Embedding of `Device::receive` for `GlendaNetDevice` (`src/device.rs` 106-135).
Phase 1 (lines 108-116): with SHM attached and no RX pending, submit one
READ over the first 2048 bytes of SHM frame 0 tagged `rx_id`, and mark
pending if the driver accepted it.  Phase 2 (lines 119-133): if an RX is
pending, peek a completion; on a tag match clear the pending flag and,
when `res > 0`, return an `RxToken` over the SHM base for `res` bytes
(the source's `shm().unwrap()` on that path: reaching it with no SHM
attached would panic, which is unreachable because pending is only ever
set with SHM attached — here the base defaults to 0). -/
def NetDev.receive (d : NetDev) (submitOk : Bool) (cqHead : Option Cqe) : RecvOut :=
  let p1 : NetDev × Option (Nat × Nat × Nat) × Bool :=
    match d.shm with
    | some base =>
        if d.rxPending then (d, none, false)
        else if submitOk then
          ({ d with rxPending := true, inflight := d.inflight + 1 },
            some (base, 2048, d.rxId), true)
        else (d, some (base, 2048, d.rxId), false)
    | none => (d, none, false)
  let d1 := p1.1
  let sub := p1.2.1
  let acc := p1.2.2
  if d1.rxPending then
    match cqHead with
    | some cqe =>
        if cqe.userData = d1.rxId then
          let d2 := { d1 with rxPending := false, inflight := d1.inflight - 1 }
          if 0 < cqe.res then
            { token := some { shm := d1.shm.getD 0, shmIdx := 0, len := cqe.res.toNat },
              submitted := sub, submitAccepted := acc, dev := d2 }
          else { token := none, submitted := sub, submitAccepted := acc, dev := d2 }
        else { token := none, submitted := sub, submitAccepted := acc, dev := d1 }
    | none => { token := none, submitted := sub, submitAccepted := acc, dev := d1 }
  else { token := none, submitted := sub, submitAccepted := acc, dev := d1 }

/-- The receive behaviour claimed for a device with SHM attached, written
after the spec's description: if no RX is in flight, submit one READ
whose buffer is the first 2 KiB of SHM frame 0 with the fixed tag,
marking it pending on successful submission; then, when an RX is in
flight (the pending flag is set), peek the completion queue, and if the
head completion's user_data equals the tag clear the pending flag, and
if additionally its result is > 0 hand back an RxToken referencing the
SHM region for exactly `result` bytes; in every other case return
nothing. -/
def receiveSpec (d : NetDev) (submitOk : Bool) (cqHead : Option Cqe) (base : Nat) : RecvOut :=
  let sub : Option (Nat × Nat × Nat) :=
    if d.rxPending then none else some (base, 2048, d.rxId)
  let acc := !d.rxPending && submitOk
  let inflight1 := if acc then d.inflight + 1 else d.inflight
  let pend1 := d.rxPending || submitOk
  let noTok : NetDev → RecvOut := fun dv =>
    { token := none, submitted := sub, submitAccepted := acc, dev := dv }
  let d1 : NetDev := { d with rxPending := pend1, inflight := inflight1 }
  if pend1 then
    match cqHead with
    | some cqe =>
        if cqe.userData = d.rxId then
          let d2 : NetDev := { d1 with rxPending := false, inflight := d1.inflight - 1 }
          if 0 < cqe.res then
            { token := some { shm := base, shmIdx := 0, len := cqe.res.toNat },
              submitted := sub, submitAccepted := acc, dev := d2 }
          else noTok d2
        else noTok d1
    | none => noTok d1
  else noTok d1

/-- Embedding of `Device::transmit` (`src/device.rs` 137-139): always yields a
TxToken and leaves the device state unchanged. -/
def NetDev.transmitStep (d : NetDev) : NetDev := d

/-- One externally-observable operation on the device. -/
inductive DevStep where
  | recvOp (submitOk : Bool) (cqHead : Option Cqe)
  | xmitOp
  | attachOp (base : Nat)
  deriving DecidableEq

/-- Instrumented step: next state, the RxToken yielded (if any) and the
RX submission attempted (if any). -/
def stepDevI (d : NetDev) : DevStep → NetDev × Option RxTok × Option (Nat × Nat × Nat)
  | .recvOp ok cq =>
      let o := d.receive ok cq
      (o.dev, o.token, o.submitted)
  | .xmitOp => (d.transmitStep, none, none)
  | .attachOp base => (d.attachShm base, none, none)

/-- Instrumented run: final state, all RxTokens yielded, all RX
submissions attempted along the trace. -/
def runDevI (d : NetDev) : List DevStep → NetDev × List RxTok × List (Nat × Nat × Nat)
  | [] => (d, [], [])
  | s :: rest =>
      let o := stepDevI d s
      let r := runDevI o.1 rest
      (r.1, o.2.1.toList ++ r.2.1, o.2.2.toList ++ r.2.2)

/-- Holds when the trace never attaches an SHM view. -/
def noAttach : List DevStep → Bool
  | [] => true
  | .attachOp _ :: _ => false
  | _ :: rest => noAttach rest

/-! ## Probe pipeline (`src/gopher/mod.rs`)

The device manager (`DeviceClient::get_logic_desc`) is an oracle from
device names to `(hardware id, is the descriptor of type Net)`.  Probing
itself (`probe`, `src/gopher/mod.rs` 134-213) is modelled by its effect
on the claim's state: push one interface context for the device and then
insert the hardware id into the probed set; the ring/SHM/config plumbing
inside `probe` touches neither the interface count nor the probed set in
any other way.  Interfaces are recorded by their hardware id (`none` for
the loopback pushed by `setup_loopback`). -/

structure ProbeSt where
  pending : List String
  probed : List Nat
  interfaces : List (Option Nat)
  deriving DecidableEq

/-- Embedding of `GopherServer::probe` tail effect (`src/gopher/mod.rs` 209-210):
`interfaces.push(ctx)` then `probed_hardware.insert(hw_id)`. -/
def probeDev (s : ProbeSt) (hw : Nat) : ProbeSt :=
  { s with
      interfaces := s.interfaces ++ [some hw],
      probed := if hw ∈ s.probed then s.probed else hw :: s.probed }

/-- The loop body of `GopherServer::process_pending_probes`
(`src/gopher/mod.rs` 115-128) over an explicit pending list: pop a name,
look it up, and probe only when the descriptor is Net and the hardware
id is not yet in the probed set. -/
def processPendingAux (oracle : String → Nat × Bool) :
    List String → ProbeSt → ProbeSt
  | [], s => { s with pending := [] }
  | n :: rest, s =>
      let r := oracle n
      let s' := if r.2 = true then (if r.1 ∈ s.probed then s else probeDev s r.1) else s
      processPendingAux oracle rest s'

/-- Embedding of `GopherServer::process_pending_probes`: drains `pending_devices`. -/
def processPending (oracle : String → Nat × Bool) (s : ProbeSt) : ProbeSt :=
  processPendingAux oracle s.pending s

/-- Number of interface contexts recorded for hardware id `h`. -/
def countHw (s : ProbeSt) (h : Nat) : Nat :=
  (s.interfaces.filter (fun i => i = some h)).length

/-! ## Event loops (`src/gopher.rs` 126-158, `src/gopher/server.rs` 104-152)

The loop bodies depend on external IPC; each iteration consumes one
oracle event describing the `endpoint.recv` outcome (and, for the
manager, whether the subsequent reply succeeded).  Capability pointers
are their integer values, `0 = CapPtr::null()`. -/

inductive LoopEv where
  | recvOk (replyErr : Option Error)
  | recvWouldBlock
  | recvTimeout
  | recvErr
  deriving DecidableEq

/-- The `while self.running` loop of `GopherManager::run` (`src/gopher.rs`
131-156): WouldBlock/Timeout/other recv errors continue; a successful
recv dispatches and then replies, and a reply failure propagates out of
`run` (`self.reply(&mut utcb)?`).  Nothing inside the loop clears
`running`, so the loop only ends by fuel exhaustion (`none`) or a reply
error.  The second component counts loop iterations entered. -/
def managerLoop : Nat → List LoopEv → Nat → Option (Except Error Unit) × Nat
  | 0, _, it => (none, it)
  | fuel + 1, evs, it =>
      match evs.headD .recvWouldBlock with
      | .recvOk replyErr =>
          match replyErr with
          | some e => (some (.error e), it + 1)
          | none => managerLoop fuel (evs.drop 1) (it + 1)
      | _ => managerLoop fuel (evs.drop 1) (it + 1)

/-- Embedding of `SystemService::run` for `GopherManager` (`src/gopher.rs` 126-158):
fails with `NotInitialized` when the endpoint or reply capability is
still null, before entering the event loop. -/
def managerRun (endpoint reply : Nat) (fuel : Nat) (evs : List LoopEv) :
    Option (Except Error Unit) × Nat :=
  if endpoint = 0 ∨ reply = 0 then (some (.error .NotInitialized), 0)
  else managerLoop fuel evs 0

/-- The `while self.running` loop of `GopherServer::run`
(`src/gopher/server.rs` 108-150): probe errors, poll errors, recv
errors, dispatch errors and reply errors are all logged and swallowed;
every branch continues the loop, so it only ends by fuel exhaustion. -/
def serverLoop : Nat → List LoopEv → Nat → Option (Except Error Unit) × Nat
  | 0, _, it => (none, it)
  | fuel + 1, evs, it => serverLoop fuel (evs.drop 1) (it + 1)

/-- Embedding of `SystemService::run` for `GopherServer` (`src/gopher/server.rs`
104-152): reports the service as running (a failure of that external
call propagates) and enters the event loop; there is no check of the
endpoint or reply capability. -/
def serverRun (_endpoint _reply : Nat) (reportErr : Option Error)
    (fuel : Nat) (evs : List LoopEv) : Option (Except Error Unit) × Nat :=
  match reportErr with
  | some e => (some (.error e), 0)
  | none => serverLoop fuel evs 0

/-! ## Claim theorems -/

/-- C1 (counterexample): the claim also covers `GopherSocket::bind`
(`src/gopher/network.rs` 42-46), but that façade bind is a stub: for the
badge 0 present in the socket table and the empty address (fewer than 2
bytes) it returns `Ok(())`, not `InvalidArgs`. -/
theorem c1_facade_bind_stub_counterexample :
    lookupK 0 (({ sockets := [newTcpSocket], socketMap := [(0, 0)] } : SocketTable)).socketMap
      = some 0 ∧
    ([] : List Nat).length < 2 ∧
    (facadeBind { sockets := [newTcpSocket], socketMap := [(0, 0)] } 0 []).1 = .ok () ∧
    (facadeBind { sockets := [newTcpSocket], socketMap := [(0, 0)] } 0 []).1
      ≠ .error Error.InvalidArgs := by
  refine ⟨rfl, by decide, rfl, by decide⟩

/-- C1 (amended): for every badge present in the socket table,
`GopherManager::bind_socket` behaves exactly as the claim states — a
short address yields `InvalidArgs`, otherwise the first two bytes are
parsed as a little-endian 16-bit port, the stack socket is put into
LISTEN on that port, and `InternalError` is returned exactly when the
stack's `listen` call fails (port 0 or socket already open) — while
`GopherServer`'s façade `bind` ignores the address and returns `Ok`. -/
theorem c1_bind_amended (st : SocketTable) (b h : Nat) (s : TcpSocket) (addr : List Nat)
    (hb : lookupK b st.socketMap = some h)
    (hs : getSock st.sockets h = s) :
    (addr.length < 2 → bindSocket st b addr = (.error .InvalidArgs, st)) ∧
    (2 ≤ addr.length →
      ((addr.getD 0 0 + 256 * addr.getD 1 0 = 0 ∨ s.isOpen = true) →
          bindSocket st b addr = (.error .InternalError, st)) ∧
      (addr.getD 0 0 + 256 * addr.getD 1 0 ≠ 0 → s.isOpen = false →
          bindSocket st b addr =
            (.ok (),
             { st with sockets := st.sockets.set h { s with isOpen := true, listenPort := some (addr.getD 0 0 + 256 * addr.getD 1 0) } }))) ∧
    facadeBind st b addr = (.ok (), st) := by
  subst hs
  refine ⟨?_, ?_, ?_⟩
  · intro hlen
    simp only [bindSocket, hb, if_pos hlen]
  · intro hlen
    have hlen' : ¬ addr.length < 2 := by omega
    constructor
    · rintro (hp | hopen)
      · have hL : (getSock st.sockets h).listenOn (addr.getD 0 0 + 256 * addr.getD 1 0)
            = .error .Unaddressable := by
          simp only [TcpSocket.listenOn, if_pos hp]
        simp only [bindSocket, hb, if_neg hlen', hL]
      · by_cases hp : addr.getD 0 0 + 256 * addr.getD 1 0 = 0
        · have hL : (getSock st.sockets h).listenOn (addr.getD 0 0 + 256 * addr.getD 1 0)
              = .error .Unaddressable := by
            simp only [TcpSocket.listenOn, if_pos hp]
          simp only [bindSocket, hb, if_neg hlen', hL]
        · have hL : (getSock st.sockets h).listenOn (addr.getD 0 0 + 256 * addr.getD 1 0)
              = .error .InvalidState := by
            simp only [TcpSocket.listenOn, if_neg hp, if_pos hopen]
          simp only [bindSocket, hb, if_neg hlen', hL]
    · intro hp hopen
      have hL : (getSock st.sockets h).listenOn (addr.getD 0 0 + 256 * addr.getD 1 0)
          = .ok { getSock st.sockets h with isOpen := true, listenPort := some (addr.getD 0 0 + 256 * addr.getD 1 0) } := by
        have : ¬ ((getSock st.sockets h).isOpen = true) := by simp [hopen]
        simp only [TcpSocket.listenOn, if_neg hp, if_neg this]
      simp only [bindSocket, hb, if_neg hlen', hL]
  · simp [facadeBind, hb]

/-- C1 (witness): a socket bound on address bytes `[0x58, 0x1B]` (port
7000) from the closed state ends in LISTEN on port 7000. -/
theorem c1_bind_witness :
    lookupK 0 (({ sockets := [newTcpSocket], socketMap := [(0, 0)] } : SocketTable)).socketMap
      = some 0 ∧
    bindSocket { sockets := [newTcpSocket], socketMap := [(0, 0)] } 0 [0x58, 0x1B] =
      (.ok (),
       { sockets := [{ newTcpSocket with isOpen := true, listenPort := some 7000 }],
         socketMap := [(0, 0)] }) ∧
    bindSocket { sockets := [newTcpSocket], socketMap := [(0, 0)] } 0 [0x58] =
      (.error .InvalidArgs, { sockets := [newTcpSocket], socketMap := [(0, 0)] }) := by
  have h := c1_bind_amended { sockets := [newTcpSocket], socketMap := [(0, 0)] } 0 0
    newTcpSocket [0x58, 0x1B] rfl rfl
  have h' := c1_bind_amended { sockets := [newTcpSocket], socketMap := [(0, 0)] } 0 0
    newTcpSocket [0x58] rfl rfl
  refine ⟨rfl, ?_, h'.1 (by decide)⟩
  have := (h.2.1 (by decide)).2 (by decide) rfl
  simpa using this

/-- C3 (counterexample): on a fresh server the first
`socket(AF_INET, SOCK_STREAM, 0)` returns badge 0, because smoltcp
socket handles are slot indexes starting at 0 and the badge is the
handle's integer value; 0 is not ≥ 1. -/
theorem c3_first_badge_counterexample :
    (socketCall { sockets := [], socketMap := [] } AF_INET SOCK_STREAM 0).1 = .ok 0 ∧
    ¬ 1 ≤ (0 : Nat) := by
  refine ⟨by rfl, by decide⟩

/-- C3 (amended): `socket(domain, type, proto)` returns `InvalidArgs`
for a non-AF_INET domain and `NotSupported` for a non-SOCK_STREAM type;
otherwise it creates exactly one stack TCP socket with 4 KiB TX and RX
buffers, derives the badge from the handle's integer value (the slot
index), inserts (badge -> handle) into the socket table and returns the
badge — which is ≥ 0, and equals 0 for the first socket, not ≥ 1. -/
theorem c3_socket_amended (st : SocketTable) (domain socktype proto : Int) :
    (domain ≠ AF_INET → socketCall st domain socktype proto = (.error .InvalidArgs, st)) ∧
    (domain = AF_INET → socktype ≠ SOCK_STREAM →
        socketCall st domain socktype proto = (.error .NotSupported, st)) ∧
    (domain = AF_INET → socktype = SOCK_STREAM →
        socketCall st domain socktype proto =
          (.ok st.sockets.length,
           { sockets := st.sockets ++ [newTcpSocket],
             socketMap := insertK st.sockets.length st.sockets.length st.socketMap }) ∧
        newTcpSocket.txCap = 4096 ∧ newTcpSocket.rxCap = 4096 ∧
        lookupK st.sockets.length
            ((socketCall st domain socktype proto).2).socketMap = some st.sockets.length) := by
  refine ⟨?_, ?_, ?_⟩
  · intro hd; simp [socketCall, hd]
  · intro hd ht; simp [socketCall, hd, ht]
  · intro hd ht
    subst hd; subst ht
    refine ⟨by simp [socketCall], rfl, rfl, ?_⟩
    simp [socketCall, insertK, lookupK]

/-- C3 (witness): on a table already holding one socket, a valid call
creates the second socket, handle/badge 1, recorded in the map. -/
theorem c3_socket_witness :
    socketCall { sockets := [newTcpSocket], socketMap := [(0, 0)] } AF_INET SOCK_STREAM 0 =
      (.ok 1,
       { sockets := [newTcpSocket, newTcpSocket], socketMap := [(1, 1), (0, 0)] }) ∧
    socketCall { sockets := [], socketMap := [] } 99 SOCK_STREAM 0 =
      (.error .InvalidArgs, { sockets := [], socketMap := [] }) := by
  have h := c3_socket_amended { sockets := [newTcpSocket], socketMap := [(0, 0)] }
    AF_INET SOCK_STREAM 0
  have h' := c3_socket_amended { sockets := [], socketMap := [] } 99 SOCK_STREAM 0
  refine ⟨?_, h'.1 (by decide)⟩
  have := (h.2.2 rfl rfl).1
  simpa [insertK, eraseK] using this

/-- C8 (counterexample): the claim also covers `SystemService::run` for
`GopherServer` (`src/gopher/server.rs` 104-152), which performs no
null-capability check: invoked with endpoint and reply still null (0) it
enters the event loop (two iterations under fuel 2) and does not fail
with `NotInitialized`. -/
theorem c8_server_run_counterexample :
    (serverRun 0 0 none 2 []).1 = none ∧
    (serverRun 0 0 none 2 []).2 = 2 ∧
    (none : Option (Except Error Unit)) ≠ some (.error .NotInitialized) := by
  refine ⟨rfl, rfl, by simp⟩

/-- C8 (amended): `GopherManager::run` invoked while the service
endpoint or the reply capability is still null fails with
`NotInitialized` before entering the event loop (zero iterations);
`GopherServer::run` performs no such check and enters its loop
regardless. -/
theorem c8_manager_run_amended (endpoint reply fuel : Nat) (evs : List LoopEv)
    (h : endpoint = 0 ∨ reply = 0) :
    managerRun endpoint reply fuel evs = (some (.error .NotInitialized), 0) := by
  simp [managerRun, h]

/-- C8 (witness): concrete null-endpoint run. -/
theorem c8_manager_run_witness :
    ((0 : Nat) = 0 ∨ (5 : Nat) = 0) ∧
    managerRun 0 5 3 [.recvOk none] = (some (.error .NotInitialized), 0) :=
  ⟨Or.inl rfl, c8_manager_run_amended 0 5 3 [.recvOk none] (Or.inl rfl)⟩

/-- C9 (confirmed): `GopherSocket::close` always returns success — it
performs no `NotFound` check, unlike `bind`, `send`, `recv`,
`setup_iouring` and `process_iouring`, which all fail with `NotFound`
for an absent badge — it is idempotent, and closing an absent badge
leaves the socket table unchanged. -/
theorem c9_close_total_idempotent (st : SocketTable) (sv : SrvState) (b : Nat)
    (addr data : List Nat) (bufLen size : Nat) (mem : Nat → Nat)
    (hs : lookupK b sv.table.socketMap = none)
    (hu : lookupK b sv.urings = none) :
    (facadeClose st b).1 = .ok () ∧
    facadeClose (facadeClose st b).2 b = facadeClose st b ∧
    facadeClose sv.table b = (.ok (), sv.table) ∧
    (facadeBind sv.table b addr).1 = .error .NotFound ∧
    (facadeSend sv.table b data).1 = .error .NotFound ∧
    (facadeRecv sv.table b bufLen).1 = .error .NotFound ∧
    (setupIouring sv b size).1 = .error .NotFound ∧
    (processIouring sv b mem).1 = .error .NotFound := by
  refine ⟨rfl, ?_, ?_, ?_, ?_, ?_, ?_, ?_⟩
  · simp [facadeClose, eraseK_idem]
  · simp [facadeClose, eraseK_of_lookup_none b _ hs]
  · simp [facadeBind, hs]
  · simp [facadeSend, hs]
  · simp [facadeRecv, hs]
  · simp [setupIouring, hs]
  · simp [processIouring, hu]

/-- C9 (witness): concrete absent badge on an empty server state. -/
theorem c9_close_witness :
    (facadeClose { sockets := [], socketMap := [(3, 0)] } 5).1 = .ok () ∧
    facadeClose { sockets := [], socketMap := [] } 5 =
      (.ok (), { sockets := [], socketMap := [] }) ∧
    (facadeSend { sockets := [], socketMap := [] } 5 [1]).1 = .error .NotFound := by
  have h := c9_close_total_idempotent { sockets := [], socketMap := [(3, 0)] }
    { table := { sockets := [], socketMap := [] }, urings := [], nextRingVaddr := 0 }
    5 [] [1] 0 0 (fun _ => 0) rfl rfl
  exact ⟨h.1, h.2.2.1, h.2.2.2.2.1⟩

/-- C2 (confirmed): for every badge present in the socket table, both
drafts' send/recv return `WouldBlock` exactly when the stack socket is
not ready under their readiness test (`may_send`/`may_recv` for
`GopherManager::send_socket`/`recv_socket`, `can_send`/`can_recv` for
`GopherSocket::send`/`recv`), and otherwise enqueue into the TX ring /
dequeue from the RX ring and return the byte count.  In the smoltcp
model `send_slice`/`recv_slice` cannot fail once the readiness test
holds, so the only surfaced errors are `WouldBlock` (the stack-failure
branches — `IoError` in the manager, `Generic` in the façade — are
unreachable). -/
theorem c2_send_recv_ready (st : SocketTable) (b h : Nat) (s : TcpSocket)
    (data : List Nat) (bufLen : Nat)
    (hb : lookupK b st.socketMap = some h)
    (hs : getSock st.sockets h = s) :
    (s.maySend = false → sendSocket st b data = (.error .WouldBlock, st)) ∧
    (s.maySend = true →
        sendSocket st b data =
          (.ok (min (s.txCap - s.txBuf.length) data.length),
           { st with sockets := st.sockets.set h { s with txBuf := s.txBuf ++ data.take (min (s.txCap - s.txBuf.length) data.length) } })) ∧
    (s.mayRecv = false → recvSocket st b bufLen = (.error .WouldBlock, st)) ∧
    (s.mayRecv = true →
        recvSocket st b bufLen =
          (.ok (min s.rxBuf.length bufLen, s.rxBuf.take (min s.rxBuf.length bufLen)),
           { st with sockets := st.sockets.set h { s with rxBuf := s.rxBuf.drop (min s.rxBuf.length bufLen) } })) ∧
    (s.canSend = false → facadeSend st b data = (.error .WouldBlock, st)) ∧
    (s.canSend = true →
        facadeSend st b data =
          (.ok (min (s.txCap - s.txBuf.length) data.length),
           { st with sockets := st.sockets.set h { s with txBuf := s.txBuf ++ data.take (min (s.txCap - s.txBuf.length) data.length) } })) ∧
    (s.canRecv = false → facadeRecv st b bufLen = (.error .WouldBlock, st)) ∧
    (s.canRecv = true →
        facadeRecv st b bufLen =
          (.ok (min s.rxBuf.length bufLen, s.rxBuf.take (min s.rxBuf.length bufLen)),
           { st with sockets := st.sockets.set h { s with rxBuf := s.rxBuf.drop (min s.rxBuf.length bufLen) } })) := by
  subst hs
  refine ⟨?_, ?_, ?_, ?_, ?_, ?_, ?_, ?_⟩
  · intro hm
    simp [sendSocket, hb, hm]
  · intro hm
    simp [sendSocket, hb, hm, TcpSocket.sendSlice]
  · intro hm
    simp [recvSocket, hb, hm]
  · intro hm
    simp [recvSocket, hb, hm, TcpSocket.recvSlice]
  · intro hc
    simp [facadeSend, hb, hc]
  · intro hc
    have hm : (getSock st.sockets h).maySend = true := by
      have := hc
      simp [TcpSocket.canSend] at this
      exact this.1
    simp [facadeSend, hb, hc, TcpSocket.sendSlice, hm]
  · intro hc
    simp [facadeRecv, hb, hc]
  · intro hc
    have hm : (getSock st.sockets h).mayRecv = true := by
      have := hc
      simp [TcpSocket.canRecv] at this
      exact this.1
    simp [facadeRecv, hb, hc, TcpSocket.recvSlice, hm]

/-- C2 (witness): a ready socket (established, RX holding `[1, 2, 3]`)
accepts 2 bytes on send and yields 2 bytes on recv in both drafts; a
closed socket gets `WouldBlock`. -/
theorem c2_send_recv_witness :
    sendSocket
        { sockets := [{ newTcpSocket with maySend := true, mayRecv := true, rxBuf := [1, 2, 3] }],
          socketMap := [(0, 0)] } 0 [7, 8] =
      (.ok 2,
       { sockets := [{ newTcpSocket with maySend := true, mayRecv := true, rxBuf := [1, 2, 3], txBuf := [7, 8] }],
         socketMap := [(0, 0)] }) ∧
    (facadeRecv
        { sockets := [{ newTcpSocket with maySend := true, mayRecv := true, rxBuf := [1, 2, 3] }],
          socketMap := [(0, 0)] } 0 2).1 = .ok (2, [1, 2]) ∧
    (sendSocket { sockets := [newTcpSocket], socketMap := [(0, 0)] } 0 [7]).1
      = .error .WouldBlock ∧
    (facadeSend { sockets := [newTcpSocket], socketMap := [(0, 0)] } 0 [7]).1
      = .error .WouldBlock := by
  have hr := c2_send_recv_ready
    { sockets := [{ newTcpSocket with maySend := true, mayRecv := true, rxBuf := [1, 2, 3] }],
      socketMap := [(0, 0)] } 0 0
    { newTcpSocket with maySend := true, mayRecv := true, rxBuf := [1, 2, 3] }
    [7, 8] 2 rfl rfl
  have hc := c2_send_recv_ready { sockets := [newTcpSocket], socketMap := [(0, 0)] } 0 0
    newTcpSocket [7] 2 rfl rfl
  refine ⟨?_, ?_, ?_, ?_⟩
  · have := hr.2.1 rfl
    simpa using this
  · have := hr.2.2.2.2.2.2.2 (by decide)
    rw [this]
    rfl
  · have := hc.1 rfl
    rw [this]
  · have := hc.2.2.2.2.1 rfl
    rw [this]

theorem rxInv_receive (d : NetDev) (ok : Bool) (cq : Option Cqe)
    (hI : d.inflight = (if d.rxPending then 1 else 0)) :
    (d.receive ok cq).dev.inflight
      = (if (d.receive ok cq).dev.rxPending then 1 else 0) := by
  obtain ⟨shm, pend, rid, infl⟩ := d
  simp only at hI
  cases shm with
  | none =>
      cases pend with
      | false =>
          simp at hI
          simp [NetDev.receive, hI]
      | true =>
          simp at hI
          cases cq with
          | none => simp [NetDev.receive, hI]
          | some cqe =>
              by_cases hc : cqe.userData = rid
              · by_cases hr : 0 < cqe.res
                · simp [NetDev.receive, hI, hc, hr]
                · simp [NetDev.receive, hI, hc, hr]
              · simp [NetDev.receive, hI, hc]
  | some base =>
      cases pend with
      | false =>
          simp at hI
          cases ok with
          | false => simp [NetDev.receive, hI]
          | true =>
              cases cq with
              | none => simp [NetDev.receive, hI]
              | some cqe =>
                  by_cases hc : cqe.userData = rid
                  · by_cases hr : 0 < cqe.res
                    · simp [NetDev.receive, hI, hc, hr]
                    · simp [NetDev.receive, hI, hc, hr]
                  · simp [NetDev.receive, hI, hc]
      | true =>
          simp at hI
          cases cq with
          | none => simp [NetDev.receive, hI]
          | some cqe =>
              by_cases hc : cqe.userData = rid
              · by_cases hr : 0 < cqe.res
                · simp [NetDev.receive, hI, hc, hr]
                · simp [NetDev.receive, hI, hc, hr]
              · simp [NetDev.receive, hI, hc]

theorem rxInv_run (steps : List DevStep) :
    ∀ d : NetDev, d.inflight = (if d.rxPending then 1 else 0) →
      (runDevI d steps).1.inflight = (if (runDevI d steps).1.rxPending then 1 else 0) := by
  induction steps with
  | nil => intro d hI; simpa [runDevI] using hI
  | cons s rest ih =>
      intro d hI
      cases s with
      | recvOp ok cq =>
          simpa [runDevI, stepDevI] using ih _ (rxInv_receive d ok cq hI)
      | xmitOp =>
          simpa [runDevI, stepDevI, NetDev.transmitStep] using ih _ hI
      | attachOp base =>
          simpa [runDevI, stepDevI] using
            ih (d.attachShm base) (by simpa [NetDev.attachShm] using hI)

/-- C4 (confirmed): along every sequence of receive/transmit (and SHM
attach) operations from the initial device state, the number of
outstanding RX submissions equals 1 exactly while the pending flag is
set — `receive` submits a READ only when no RX is pending, marks it
pending on successful submission, and clears it only on the matching
completion — and is therefore never more than 1. -/
theorem c4_rx_single_slot (steps : List DevStep) :
    (runDevI newNetDev steps).1.inflight
      = (if (runDevI newNetDev steps).1.rxPending then 1 else 0) ∧
    (runDevI newNetDev steps).1.inflight ≤ 1 := by
  have h := rxInv_run steps newNetDev (by simp [newNetDev])
  refine ⟨h, ?_⟩
  rw [h]
  by_cases hp : (runDevI newNetDev steps).1.rxPending = true
  · simp [hp]
  · simp at hp
    simp [hp]

/-- C5 (confirmed): with SHM attached, `Device::receive` for the real
net device agrees exactly with the spec-side description `receiveSpec`:
when no RX is in flight it submits one READ over the first 2 KiB of SHM
frame 0 with the fixed tag (pending on successful submission); then,
with an RX in flight, a head completion matching the tag clears the
pending flag and, if its result is positive, yields an RxToken over the
SHM region for exactly `result` bytes; every other case yields nothing. -/
theorem c5_receive_refines_spec (d : NetDev) (ok : Bool) (cq : Option Cqe) (base : Nat)
    (hshm : d.shm = some base) :
    d.receive ok cq = receiveSpec d ok cq base := by
  obtain ⟨shm, pend, rid, infl⟩ := d
  simp only at hshm
  subst hshm
  cases pend with
  | false =>
      cases ok with
      | false => simp [NetDev.receive, receiveSpec]
      | true =>
          cases cq with
          | none => simp [NetDev.receive, receiveSpec]
          | some cqe =>
              by_cases hc : cqe.userData = rid
              · by_cases hr : 0 < cqe.res
                · simp [NetDev.receive, receiveSpec, hc, hr]
                · simp [NetDev.receive, receiveSpec, hc, hr]
              · simp [NetDev.receive, receiveSpec, hc]
  | true =>
      cases cq with
      | none => simp [NetDev.receive, receiveSpec]
      | some cqe =>
          by_cases hc : cqe.userData = rid
          · by_cases hr : 0 < cqe.res
            · simp [NetDev.receive, receiveSpec, hc, hr]
            · simp [NetDev.receive, receiveSpec, hc, hr]
          · simp [NetDev.receive, receiveSpec, hc]

/-- C5 (witness): a device with SHM at base 4096 and an RX in flight,
whose head completion carries the tag and result 60, agrees with the
spec description and yields the 60-byte token over the SHM region. -/
theorem c5_receive_witness :
    NetDev.receive { shm := some 4096, rxPending := true, rxId := 0x100, inflight := 1 }
        true (some { userData := 0x100, res := 60 }) =
      receiveSpec { shm := some 4096, rxPending := true, rxId := 0x100, inflight := 1 }
        true (some { userData := 0x100, res := 60 }) 4096 ∧
    (NetDev.receive { shm := some 4096, rxPending := true, rxId := 0x100, inflight := 1 }
        true (some { userData := 0x100, res := 60 })).token
      = some { shm := 4096, shmIdx := 0, len := 60 } :=
  ⟨c5_receive_refines_spec _ true _ 4096 rfl, rfl⟩

/-- C10 (confirmed): a real net device that never attaches an SHM view
stays in its initial state along any receive/transmit trace — every
`receive` returns nothing and submits no RX request — so it can never
yield an RxToken. -/
theorem c10_no_shm_inert (steps : List DevStep) (h : noAttach steps = true) :
    runDevI newNetDev steps = (newNetDev, [], []) := by
  induction steps with
  | nil => rfl
  | cons s rest ih =>
      cases s with
      | recvOp ok cq =>
          have hstep : stepDevI newNetDev (.recvOp ok cq) = (newNetDev, none, none) := rfl
          have hrest : noAttach rest = true := by
            simpa [noAttach] using h
          simp [runDevI, hstep, ih hrest]
      | xmitOp =>
          have hrest : noAttach rest = true := by
            simpa [noAttach] using h
          simp [runDevI, stepDevI, NetDev.transmitStep, ih hrest]
      | attachOp base =>
          simp [noAttach] at h

/-- C10 (witness): a concrete attach-free trace with driver completions
pending yields no token, no submission, and the initial state. -/
theorem c10_no_shm_witness :
    noAttach [.recvOp true (some { userData := 0x100, res := 60 }), .xmitOp,
        .recvOp false none] = true ∧
    runDevI newNetDev [.recvOp true (some { userData := 0x100, res := 60 }), .xmitOp,
        .recvOp false none] = (newNetDev, [], []) :=
  ⟨rfl, c10_no_shm_inert _ rfl⟩

theorem lookupK_insert {α : Type} (k : Nat) (v : α) (l : List (Nat × α)) :
    lookupK k (insertK k v l) = some v := by
  simp [insertK, lookupK]

theorem iouringStep_snd (b : Nat) (mem : Nat → Nat) (tbl : SocketTable)
    (cq : List CqeU) (sqe : Sqe) :
    ∃ r : Int, iouringStep b mem (tbl, cq) sqe
      = ((iouringStep b mem (tbl, cq) sqe).1,
         cq ++ [{ userData := sqe.userData, res := r }]) := by
  by_cases h1 : sqe.opcode = IOURING_OP_READ
  · rcases hf : facadeRecv tbl b sqe.len with ⟨res, tbl'⟩
    cases res with
    | ok p => exact ⟨(p.1 : Int), by simp [iouringStep, h1, hf]⟩
    | error e => exact ⟨-(e.code), by simp [iouringStep, h1, hf]⟩
  · by_cases h2 : sqe.opcode = IOURING_OP_WRITE
    · rcases hf : facadeSend tbl b ((List.range sqe.len).map (fun i => mem (sqe.addr + i)))
        with ⟨res, tbl'⟩
      cases res with
      | ok n => exact ⟨(n : Int), by simp [iouringStep, h1, h2, hf, IOURING_OP_READ, IOURING_OP_WRITE]⟩
      | error e => exact ⟨-(e.code), by simp [iouringStep, h1, h2, hf, IOURING_OP_READ, IOURING_OP_WRITE]⟩
    · exact ⟨-(Error.NotSupported.code), by simp [iouringStep, h1, h2]⟩

theorem iouring_fold_userData (b : Nat) (mem : Nat → Nat) (sq : List Sqe) :
    ∀ (tbl : SocketTable) (cq : List CqeU),
      ((sq.foldl (iouringStep b mem) (tbl, cq)).2).map CqeU.userData
        = cq.map CqeU.userData ++ sq.map Sqe.userData := by
  induction sq with
  | nil => intro tbl cq; simp
  | cons sqe rest ih =>
      intro tbl cq
      obtain ⟨r, hstep⟩ := iouringStep_snd b mem tbl cq sqe
      rw [List.foldl_cons, hstep, ih]
      simp

/-- C6 (confirmed): for every badge with a registered uring server and
every batch of pending submission entries, `process_iouring` drains all
of them and produces exactly one completion per entry, each carrying the
submitting entry's `user_data`; READ entries are routed to `recv` and
WRITE entries to `send` (result = byte count on success, negated error
code on failure), and any other opcode completes with the negated
`NotSupported` code. -/
theorem c6_process_iouring_drains (st : SrvState) (b : Nat) (mem : Nat → Nat) (us : UringSrv)
    (hu : lookupK b st.urings = some us) :
    (processIouring st b mem).1 = .ok () ∧
    lookupK b ((processIouring st b mem).2).urings
      = some { sq := [], cq := (us.sq.foldl (iouringStep b mem) (st.table, us.cq)).2 } ∧
    ((us.sq.foldl (iouringStep b mem) (st.table, us.cq)).2).map CqeU.userData
      = us.cq.map CqeU.userData ++ us.sq.map Sqe.userData ∧
    ((us.sq.foldl (iouringStep b mem) (st.table, us.cq)).2).length
      = us.cq.length + us.sq.length ∧
    (∀ (tbl : SocketTable) (cq : List CqeU) (sqe : Sqe), sqe.opcode = IOURING_OP_READ →
        (iouringStep b mem (tbl, cq) sqe).1 = (facadeRecv tbl b sqe.len).2 ∧
        (∀ (n : Nat) (bytes : List Nat), (facadeRecv tbl b sqe.len).1 = .ok (n, bytes) →
            (iouringStep b mem (tbl, cq) sqe).2
              = cq ++ [{ userData := sqe.userData, res := (n : Int) }]) ∧
        (∀ e : Error, (facadeRecv tbl b sqe.len).1 = .error e →
            (iouringStep b mem (tbl, cq) sqe).2
              = cq ++ [{ userData := sqe.userData, res := -(e.code) }])) ∧
    (∀ (tbl : SocketTable) (cq : List CqeU) (sqe : Sqe), sqe.opcode = IOURING_OP_WRITE →
        (iouringStep b mem (tbl, cq) sqe).1
          = (facadeSend tbl b ((List.range sqe.len).map (fun i => mem (sqe.addr + i)))).2 ∧
        (∀ n : Nat,
            (facadeSend tbl b ((List.range sqe.len).map (fun i => mem (sqe.addr + i)))).1
              = .ok n →
            (iouringStep b mem (tbl, cq) sqe).2
              = cq ++ [{ userData := sqe.userData, res := (n : Int) }]) ∧
        (∀ e : Error,
            (facadeSend tbl b ((List.range sqe.len).map (fun i => mem (sqe.addr + i)))).1
              = .error e →
            (iouringStep b mem (tbl, cq) sqe).2
              = cq ++ [{ userData := sqe.userData, res := -(e.code) }])) ∧
    (∀ (tbl : SocketTable) (cq : List CqeU) (sqe : Sqe),
        sqe.opcode ≠ IOURING_OP_READ → sqe.opcode ≠ IOURING_OP_WRITE →
        iouringStep b mem (tbl, cq) sqe
          = (tbl, cq ++ [{ userData := sqe.userData, res := -(Error.NotSupported.code) }])) := by
  refine ⟨?_, ?_, iouring_fold_userData b mem us.sq st.table us.cq, ?_, ?_, ?_, ?_⟩
  · simp [processIouring, hu]
  · simp [processIouring, hu, lookupK_insert]
  · have hmap := iouring_fold_userData b mem us.sq st.table us.cq
    have := congrArg List.length hmap
    simpa using this
  · intro tbl cq sqe h1
    rcases hf : facadeRecv tbl b sqe.len with ⟨res, tbl'⟩
    refine ⟨?_, ?_, ?_⟩
    · cases res with
      | ok p => simp [iouringStep, h1, hf]
      | error e => simp [iouringStep, h1, hf]
    · intro n bytes hok
      simp at hok
      subst hok
      simp [iouringStep, h1, hf]
    · intro e herr
      simp at herr
      subst herr
      simp [iouringStep, h1, hf]
  · intro tbl cq sqe h2
    have h1 : sqe.opcode ≠ IOURING_OP_READ := by
      rw [h2]; decide
    rcases hf : facadeSend tbl b ((List.range sqe.len).map (fun i => mem (sqe.addr + i)))
      with ⟨res, tbl'⟩
    refine ⟨?_, ?_, ?_⟩
    · cases res with
      | ok n => simp [iouringStep, h1, h2, hf, IOURING_OP_READ, IOURING_OP_WRITE]
      | error e => simp [iouringStep, h1, h2, hf, IOURING_OP_READ, IOURING_OP_WRITE]
    · intro n hok
      simp at hok
      subst hok
      simp [iouringStep, h1, h2, hf, IOURING_OP_READ, IOURING_OP_WRITE]
    · intro e herr
      simp at herr
      subst herr
      simp [iouringStep, h1, h2, hf, IOURING_OP_READ, IOURING_OP_WRITE]
  · intro tbl cq sqe h1 h2
    simp [iouringStep, h1, h2]

/-- C6 (witness): a server with one ready socket and a two-entry batch
(a READ for 2 bytes tagged 42, an unknown opcode 7 tagged 43) completes
both: (42, 2) and (43, negated NotSupported). -/
theorem c6_process_iouring_witness :
    (processIouring
        { table := { sockets := [{ newTcpSocket with maySend := true, mayRecv := true, rxBuf := [9, 8] }],
                     socketMap := [(0, 0)] },
          urings := [(0, { sq := [{ opcode := IOURING_OP_READ, addr := 0, len := 2, userData := 42 },
                                  { opcode := 7, addr := 0, len := 0, userData := 43 }],
                           cq := [] })],
          nextRingVaddr := 0 } 0 (fun _ => 0)).1 = .ok () ∧
    lookupK 0 ((processIouring
        { table := { sockets := [{ newTcpSocket with maySend := true, mayRecv := true, rxBuf := [9, 8] }],
                     socketMap := [(0, 0)] },
          urings := [(0, { sq := [{ opcode := IOURING_OP_READ, addr := 0, len := 2, userData := 42 },
                                  { opcode := 7, addr := 0, len := 0, userData := 43 }],
                           cq := [] })],
          nextRingVaddr := 0 } 0 (fun _ => 0)).2).urings
      = some { sq := [],
               cq := [{ userData := 42, res := 2 }, { userData := 43, res := -5 }] } := by
  have h := c6_process_iouring_drains
    { table := { sockets := [{ newTcpSocket with maySend := true, mayRecv := true, rxBuf := [9, 8] }],
                 socketMap := [(0, 0)] },
      urings := [(0, { sq := [{ opcode := IOURING_OP_READ, addr := 0, len := 2, userData := 42 },
                              { opcode := 7, addr := 0, len := 0, userData := 43 }],
                       cq := [] })],
      nextRingVaddr := 0 } 0 (fun _ => 0)
    { sq := [{ opcode := IOURING_OP_READ, addr := 0, len := 2, userData := 42 },
             { opcode := 7, addr := 0, len := 0, userData := 43 }], cq := [] } rfl
  refine ⟨h.1, ?_⟩
  have h2 := h.2.1
  rw [h2]
  rfl

theorem probeDev_inv (s : ProbeSt) (hw hq : Nat)
    (hmem : hw ∉ s.probed)
    (hI : countHw s hq = (if hq ∈ s.probed then 1 else 0)) :
    countHw (probeDev s hw) hq = (if hq ∈ (probeDev s hw).probed then 1 else 0) := by
  by_cases hh : hq = hw
  · subst hh
    have h0 : countHw s hq = 0 := by rw [hI, if_neg hmem]
    have hcnt : countHw (probeDev s hq) hq = countHw s hq + 1 := by
      simp [probeDev, countHw, List.filter_append]
    have hmm : hq ∈ (probeDev s hq).probed := by
      simp [probeDev, hmem]
    rw [hcnt, h0, if_pos hmm]
  · have hcnt : countHw (probeDev s hw) hq = countHw s hq := by
      have hne : ¬ ((some hw : Option Nat) = some hq) := by
        intro hq2
        exact hh (Option.some_injective Nat hq2).symm
      simp [probeDev, countHw, List.filter_append, hne]
    have hmm : (hq ∈ (probeDev s hw).probed) ↔ (hq ∈ s.probed) := by
      by_cases hmem3 : hw ∈ s.probed
      · simp [probeDev, hmem3]
      · simp [probeDev, hmem3, List.mem_cons, hh]
    rw [hcnt, hI]
    by_cases hm : hq ∈ s.probed
    · rw [if_pos hm, if_pos (hmm.mpr hm)]
    · rw [if_neg hm, if_neg (fun hx => hm (hmm.mp hx))]

theorem probe_inv_aux (oracle : String → Nat × Bool) (h : Nat) :
    ∀ (pend : List String) (s : ProbeSt),
      countHw s h = (if h ∈ s.probed then 1 else 0) →
      countHw (processPendingAux oracle pend s) h
        = (if h ∈ (processPendingAux oracle pend s).probed then 1 else 0) := by
  intro pend
  induction pend with
  | nil =>
      intro s hI
      simpa [processPendingAux, countHw] using hI
  | cons n rest ih =>
      intro s hI
      rw [processPendingAux]
      apply ih
      by_cases hnet : (oracle n).2 = true
      · rw [if_pos hnet]
        by_cases hmem : (oracle n).1 ∈ s.probed
        · rw [if_pos hmem]
          exact hI
        · rw [if_neg hmem]
          exact probeDev_inv s (oracle n).1 h hmem hI
      · rw [if_neg hnet]
        exact hI

/-- C7 (confirmed): starting from any state satisfying the probe
invariant (a hardware id has exactly one interface context iff it is in
the probed set — true initially, when both are empty), draining the
pending-probe queue preserves it: `process_pending_probes` skips any
name whose hardware id is already probed and `probe` pushes one
interface context and then marks the id probed, so any hardware id —
however many pending names resolve to it, across however many passes —
ends with at most one interface in the interface list. -/
theorem c7_probe_dedup (oracle : String → Nat × Bool) (s : ProbeSt) (h : Nat)
    (hI : countHw s h = (if h ∈ s.probed then 1 else 0)) :
    countHw (processPending oracle s) h
      = (if h ∈ (processPending oracle s).probed then 1 else 0) ∧
    countHw (processPending oracle s) h ≤ 1 := by
  have hmain := probe_inv_aux oracle h s.pending s hI
  refine ⟨hmain, ?_⟩
  show countHw (processPendingAux oracle s.pending s) h ≤ 1
  rw [hmain]
  by_cases hm : h ∈ (processPendingAux oracle s.pending s).probed
  · rw [if_pos hm]
  · rw [if_neg hm]
    omega

/-- C7 (witness): two pending names both resolving to hardware id 7,
starting from the post-init state (loopback only, nothing probed),
produce exactly one interface for id 7. -/
theorem c7_probe_dedup_witness :
    countHw { pending := ["a", "b"], probed := [], interfaces := [none] } 7
      = (if 7 ∈ ({ pending := ["a", "b"], probed := [], interfaces := [none] } : ProbeSt).probed
         then 1 else 0) ∧
    countHw (processPending (fun _ => (7, true))
        { pending := ["a", "b"], probed := [], interfaces := [none] }) 7 = 1 ∧
    countHw (processPending (fun _ => (7, true))
        { pending := ["a", "b"], probed := [], interfaces := [none] }) 7 ≤ 1 := by
  have hI : countHw { pending := ["a", "b"], probed := [], interfaces := [none] } 7
      = (if 7 ∈ ({ pending := ["a", "b"], probed := [], interfaces := [none] } : ProbeSt).probed
         then 1 else 0) := by decide
  have h := c7_probe_dedup (fun _ => (7, true))
    { pending := ["a", "b"], probed := [], interfaces := [none] } 7 hI
  exact ⟨hI, h.1, h.2⟩

end GopherModel
